import Mathlib

/-!
Verification of the session/process supervisor of the claude-code-discord
repository, shallowly embedded in Lean 4.

The embedding follows the JSON-streaming process manager (class
`ClaudeSession`, `handleJsonLine`, the stdout chunking handler, the
`getOrCreateSession`/`getSession`/`removeSession` registry), the Discord
message streaming loop (`updateMessage` throttling in
`DiscordBot.handleMessage`), and the formatter (`splitMessage`).

Strings from the source are modeled as `List Char` where per-character
operations matter (chunk splitting, message splitting) and as `String`
elsewhere.  JavaScript `-1` index sentinels are modeled with `Option Nat`.
-/

/-! ## JSON values and a model of JSON.parse

`handleJsonLine` starts with `JSON.parse(line)`.  The value space of the
wire protocol is plain JSON; numbers are kept in parsed positional form
(sign, integer digits, fraction digits, exponent), which is enough to
decide JavaScript truthiness.  Object field lookup is last-wins, matching
JavaScript duplicate-key semantics.
-/

inductive Json where
  | null : Json
  | bool (b : Bool) : Json
  | num (neg : Bool) (ip : Nat) (fp : List Char) (ex : Int) : Json
  | str (s : String) : Json
  | arr (elems : List Json) : Json
  | obj (fields : List (String × Json)) : Json

/-- Field access `data.k` on a parsed value: last binding wins, and access
on a non-object yields `none` (JavaScript `undefined`). -/
def Json.getField (j : Json) (k : String) : Option Json :=
  match j with
  | .obj fs => fs.foldl (fun acc p => if p.1 = k then some p.2 else acc) none
  | _ => none

/-- JavaScript truthiness of a field value, with `none` standing for
`undefined`. -/
def jsTruthy : Option Json → Bool
  | none => false
  | some .null => false
  | some (.bool b) => b
  | some (.num _ ip fp _) => !(ip = 0 && fp.all (· = '0'))
  | some (.str s) => !(s = "")
  | some (.arr _) => true
  | some (.obj _) => true

/-- JavaScript string coercion, exact on the string case the wire protocol
uses; other cases get a fixed rendering. -/
def jsonAsString : Json → String
  | .str s => s
  | .null => "null"
  | .bool b => if b then "true" else "false"
  | .num .. => "<number>"
  | .arr _ => ""
  | .obj _ => "[object Object]"

/-- Coercion of `data.k` to a string, `undefined` rendering included
(JavaScript `x += obj.missing` appends the text `undefined`). -/
def jsFieldString (j : Json) (k : String) : String :=
  match j.getField k with
  | some v => jsonAsString v
  | none => "undefined"

def isJsonWs (c : Char) : Bool :=
  c = ' ' || c = '\t' || c = '\n' || c = '\r'

def skipWs (l : List Char) : List Char := l.dropWhile isJsonWs

def isDigitCh (c : Char) : Bool := '0' ≤ c && c ≤ '9'

/-- Numeric value of a single hexadecimal digit. -/
def hexDigit (c : Char) : Option Nat :=
  let n := c.toNat
  if 48 ≤ n ∧ n ≤ 57 then some (n - 48)
  else if 97 ≤ n ∧ n ≤ 102 then some (n - 87)
  else if 65 ≤ n ∧ n ≤ 70 then some (n - 55)
  else none

/-- Decimal value of a digit run. -/
def digitsVal (ds : List Char) : Nat :=
  ds.foldl (fun acc d => 10 * acc + (d.toNat - 48)) 0

/-- Body of a JSON string literal, after the opening quote: returns the
decoded characters and the input after the closing quote. -/
def parseStringBody : List Char → Option (List Char × List Char)
  | [] => none
  | '"' :: rest => some ([], rest)
  | '\\' :: 'n' :: rest => (parseStringBody rest).map (fun p => ('\n' :: p.1, p.2))
  | '\\' :: 't' :: rest => (parseStringBody rest).map (fun p => ('\t' :: p.1, p.2))
  | '\\' :: 'r' :: rest => (parseStringBody rest).map (fun p => ('\r' :: p.1, p.2))
  | '\\' :: 'b' :: rest => (parseStringBody rest).map (fun p => ('\x08' :: p.1, p.2))
  | '\\' :: 'f' :: rest => (parseStringBody rest).map (fun p => ('\x0c' :: p.1, p.2))
  | '\\' :: '"' :: rest => (parseStringBody rest).map (fun p => ('"' :: p.1, p.2))
  | '\\' :: '\\' :: rest => (parseStringBody rest).map (fun p => ('\\' :: p.1, p.2))
  | '\\' :: '/' :: rest => (parseStringBody rest).map (fun p => ('/' :: p.1, p.2))
  | '\\' :: 'u' :: h1 :: h2 :: h3 :: h4 :: rest =>
      match hexDigit h1, hexDigit h2, hexDigit h3, hexDigit h4 with
      | some a, some b, some c, some d =>
          let code := 16 * (16 * (16 * a + b) + c) + d
          (parseStringBody rest).map (fun p => (Char.ofNat code :: p.1, p.2))
      | _, _, _, _ => none
  | '\\' :: _ => none
  | c :: rest =>
      if c.toNat < 32 then none
      else (parseStringBody rest).map (fun p => (c :: p.1, p.2))

/-- Fraction part of a JSON number (possibly absent). -/
def parseFrac (l : List Char) : Option (List Char × List Char) :=
  match l with
  | '.' :: r =>
      let ds := r.takeWhile isDigitCh
      if ds.isEmpty then none else some (ds, r.drop ds.length)
  | _ => some ([], l)

/-- Exponent part of a JSON number (possibly absent). -/
def parseExp (l : List Char) : Option (Int × List Char) :=
  match l with
  | 'e' :: r => parseExpTail r
  | 'E' :: r => parseExpTail r
  | _ => some (0, l)
where
  parseExpTail (r : List Char) : Option (Int × List Char) :=
    let (sgn, r1) : Bool × List Char :=
      match r with
      | '+' :: r1 => (false, r1)
      | '-' :: r1 => (true, r1)
      | _ => (false, r)
    let ds := r1.takeWhile isDigitCh
    if ds.isEmpty then none
    else
      let n : Nat := digitsVal ds
      some (if sgn then -(n : Int) else (n : Int), r1.drop ds.length)

/-- A JSON number token. -/
def parseNumber (l : List Char) : Option (Json × List Char) :=
  let (neg, l1) : Bool × List Char :=
    match l with
    | '-' :: r => (true, r)
    | _ => (false, l)
  let ipds := l1.takeWhile isDigitCh
  if ipds.isEmpty then none
  else if 1 < ipds.length && ipds.headD '0' = '0' then none
  else
    let ip : Nat := digitsVal ipds
    match parseFrac (l1.drop ipds.length) with
    | none => none
    | some (fp, l2) =>
        match parseExp l2 with
        | none => none
        | some (ex, l3) => some (.num neg ip fp ex, l3)

mutual

/-- A JSON value, fuel-indexed for the nesting recursion. -/
def parseValue : Nat → List Char → Option (Json × List Char)
  | 0, _ => none
  | fuel + 1, l =>
    match skipWs l with
    | [] => none
    | 'n' :: 'u' :: 'l' :: 'l' :: rest => some (.null, rest)
    | 't' :: 'r' :: 'u' :: 'e' :: rest => some (.bool true, rest)
    | 'f' :: 'a' :: 'l' :: 's' :: 'e' :: rest => some (.bool false, rest)
    | '"' :: rest => (parseStringBody rest).map (fun p => (.str (String.mk p.1), p.2))
    | '[' :: rest =>
        (match skipWs rest with
         | ']' :: r2 => some (.arr [], r2)
         | r2 => parseArrayRest fuel r2 [])
    | '{' :: rest =>
        (match skipWs rest with
         | '}' :: r2 => some (.obj [], r2)
         | r2 => parseObjectRest fuel r2 [])
    | l1 => parseNumber l1

/-- Comma-separated array elements up to the closing bracket. -/
def parseArrayRest : Nat → List Char → List Json → Option (Json × List Char)
  | 0, _, _ => none
  | fuel + 1, l, acc =>
    match parseValue fuel l with
    | none => none
    | some (v, rest) =>
        match skipWs rest with
        | ',' :: r2 => parseArrayRest fuel r2 (acc ++ [v])
        | ']' :: r2 => some (.arr (acc ++ [v]), r2)
        | _ => none

/-- Comma-separated object members up to the closing brace. -/
def parseObjectRest : Nat → List Char → List (String × Json) → Option (Json × List Char)
  | 0, _, _ => none
  | fuel + 1, l, acc =>
    match skipWs l with
    | '"' :: r1 =>
        (match parseStringBody r1 with
         | none => none
         | some (key, r2) =>
             match skipWs r2 with
             | ':' :: r3 =>
                 (match parseValue fuel r3 with
                  | none => none
                  | some (v, r4) =>
                      match skipWs r4 with
                      | ',' :: r5 => parseObjectRest fuel r5 (acc ++ [(String.mk key, v)])
                      | '}' :: r5 => some (.obj (acc ++ [(String.mk key, v)]), r5)
                      | _ => none)
             | _ => none)
    | _ => none

end

/-- Model of `JSON.parse` on one line: a single JSON value with nothing but
whitespace around it; anything else throws, modeled as `none`. -/
def parseJson (l : List Char) : Option Json :=
  match parseValue (l.length + 1) l with
  | some (v, rest) => if (skipWs rest).isEmpty then some v else none
  | none => none


/-! ## Session state and decoded events

`ClaudeSession` (JSON-streaming manager): fields of the constructor plus
the process handle, with ghost observation fields recording every promise
resolution of the current turn (`outcomes`).  The promise callbacks
`pendingResolve`/`pendingReject` are modeled as their null-ness.
-/

/-- Terminal outcome delivered to a turn promise. -/
inductive TurnOutcome where
  | success (output : String) (sessionId : Option String) : TurnOutcome
  | failure (message : String) : TurnOutcome
deriving DecidableEq

structure SessionState where
  sessionId : Option String := none
  workingDir : String := "<cwd>"
  timeout : Nat := 300000
  hasProcess : Bool := false
  isProcessing : Bool := false
  pendingResolve : Bool := false
  pendingReject : Bool := false
  currentOutput : String := ""
  timerArmed : Bool := false
  outcomes : List TurnOutcome := []
deriving DecidableEq

/-- Options record of the `ClaudeSession` constructor and of
`getOrCreateSession`. -/
structure SessionOptions where
  sessionId : Option String := none
  workingDir : Option String := none

/-- JavaScript truthiness of an optional string field. -/
def optTruthy : Option String → Bool
  | none => false
  | some s => !(s = "")

/-- The constructor `new ClaudeSession(options)`: `options.sessionId || null`,
`options.workingDir || process.cwd()`; `process.cwd()` is the abstract
constant `"<cwd>"`. -/
def mkSession (options : SessionOptions) : SessionState :=
  { sessionId := if optTruthy options.sessionId then options.sessionId else none
    workingDir :=
      match options.workingDir with
      | some s => if s = "" then "<cwd>" else s
      | none => "<cwd>" }

/-- Events emitted by the session while decoding, restricted to their
payloads of interest. -/
inductive Event where
  | session (id : String) : Event
  | init : Event
  | text (s : String) : Event
  | thinking (s : String) : Event
  | toolUse (name : String) (status : String) : Event
  | status (s : String) : Event
  | result : Event
  | other : Event
  | parseError (line : String) : Event
deriving DecidableEq

/-- Generic event-accumulating fold: runs `f` over `xs` threading the
state and concatenating the emitted event lists in order.  This is the
shape of every event-emitting loop in the source. -/
def accumFold (f : σ → α → σ × List β) (init : σ) (xs : List α) : σ × List β :=
  xs.foldl (fun acc x => let r := f acc.1 x; (r.1, acc.2 ++ r.2)) (init, [])

/-! ## handleJsonLine -/

/-- The `shortenPath` helper of `ClaudeSession`: backslashes to slashes, and paths
with more than two segments abbreviated to the last two. -/
def shortenPath (path : String) : String :=
  if path = "" then ""
  else
    let parts := (String.mk (path.toList.map (fun c => if c = '\\' then '/' else c))).splitOn "/"
    if 2 < parts.length then ".../" ++ String.intercalate "/" (parts.drop (parts.length - 2))
    else path

/-- The human-readable tool status table of the `tool_use` branch. -/
def toolStatus (toolName : String) (toolInput : Json) : String :=
  if toolName = "Read" && jsTruthy (toolInput.getField "file_path") then
    "Reading " ++ shortenPath (jsFieldString toolInput "file_path")
  else if toolName = "Write" && jsTruthy (toolInput.getField "file_path") then
    "Writing " ++ shortenPath (jsFieldString toolInput "file_path")
  else if toolName = "Edit" && jsTruthy (toolInput.getField "file_path") then
    "Editing " ++ shortenPath (jsFieldString toolInput "file_path")
  else if toolName = "Bash" && jsTruthy (toolInput.getField "command") then
    let cmd := jsFieldString toolInput "command"
    "Running: " ++ (String.mk (cmd.toList.take 30)) ++ (if 30 < cmd.length then "..." else "")
  else if toolName = "Grep" || toolName = "Glob" then "Searching..."
  else if toolName = "WebFetch" then "Fetching web content"
  else if toolName = "Task" then "Spawning agent..."
  else toolName

/-- One content block of an `assistant` record. -/
def handleBlock (st : SessionState) (block : Json) : SessionState × List Event :=
  match block.getField "type" with
  | some (.str t) =>
      if t = "text" then
        let s := jsFieldString block "text"
        ({ st with currentOutput := st.currentOutput ++ s }, [.text s])
      else if t = "thinking" then
        (st, [.thinking (jsFieldString block "thinking")])
      else if t = "tool_use" then
        let toolName := if jsTruthy (block.getField "name") then jsFieldString block "name" else "Tool"
        let toolInput := match block.getField "input" with
          | some v => if jsTruthy (some v) then v else .obj []
          | none => .obj []
        let status := toolStatus toolName toolInput
        (st, [.toolUse toolName status, .status status])
      else (st, [])
  | _ => (st, [])

/-- JavaScript strict equality `obj.k === lit` for a string literal:
true only when the field holds exactly that string. -/
def fieldIsStr (j : Json) (k : String) (lit : String) : Bool :=
  match j.getField k with
  | some (.str s) => s = lit
  | _ => false

/-- The session-identity latch shared by the `init` and `assistant`
branches: `if (data.session_id && !this.sessionId)`. -/
def latchSessionId (st : SessionState) (data : Json) : SessionState × List Event :=
  if jsTruthy (data.getField "session_id") && !(optTruthy st.sessionId) then
    let sid := jsFieldString data "session_id"
    ({ st with sessionId := some sid }, [.session sid])
  else (st, [])

/-- The `system` case: only subtype `init` acts, latching the identity
and emitting `init`. -/
def handleSystem (st : SessionState) (data : Json) : SessionState × List Event :=
  if fieldIsStr data "subtype" "init" then
    let r := latchSessionId st data
    (r.1, r.2 ++ [.init])
  else (st, [])

/-- The content-block loop of the `assistant` case, guarded by
`data.message && data.message.content` (non-array content is outside the
wire protocol and does nothing here). -/
def assistantContent (st : SessionState) (data : Json) : SessionState × List Event :=
  match data.getField "message" with
  | some m =>
      if jsTruthy (some m) then
        match m.getField "content" with
        | some (.arr blocks) => accumFold handleBlock st blocks
        | _ => (st, [])
      else (st, [])
  | none => (st, [])

/-- The `assistant` case: iterate the content blocks, then latch the
identity. -/
def handleAssistant (st : SessionState) (data : Json) : SessionState × List Event :=
  let r1 := assistantContent st data
  let r2 := latchSessionId r1.1 data
  (r2.1, r1.2 ++ r2.2)

/-- The `content_block_start` case: status only. -/
def handleContentBlockStart (st : SessionState) (data : Json) : SessionState × List Event :=
  match data.getField "content_block" with
  | some cb =>
      if jsTruthy (some cb) && fieldIsStr cb "type" "tool_use" then
        (st, [.status ("Using " ++ jsFieldString cb "name" ++ "...")])
      else if jsTruthy (some cb) && fieldIsStr cb "type" "thinking" then
        (st, [.status "Thinking..."])
      else (st, [])
  | none => (st, [])

/-- The `content_block_delta` case: thinking deltas emit, text deltas
append and emit. -/
def handleContentBlockDelta (st : SessionState) (data : Json) : SessionState × List Event :=
  match data.getField "delta" with
  | some d =>
      if jsTruthy (some d) then
        if fieldIsStr d "type" "thinking_delta" && jsTruthy (d.getField "thinking") then
          (st, [.thinking (jsFieldString d "thinking")])
        else if fieldIsStr d "type" "text_delta" && jsTruthy (d.getField "text") then
          let s := jsFieldString d "text"
          ({ st with currentOutput := st.currentOutput ++ s }, [.text s])
        else (st, [])
      else (st, [])
  | none => (st, [])

/-- The `result` case: a truthy final result replaces `currentOutput`,
and a truthy session id is stored unconditionally. -/
def handleResult (st : SessionState) (data : Json) : SessionState × List Event :=
  let st1 := if jsTruthy (data.getField "result") then
      { st with currentOutput := jsFieldString data "result" }
    else st
  let st2 := if jsTruthy (data.getField "session_id") then
      { st1 with sessionId := some (jsFieldString data "session_id") }
    else st1
  (st2, [.result])

/-- The switch body of `handleJsonLine` on an already-parsed record; the
JavaScript switch compares `data.type` by strict equality. -/
def handleRecord (st : SessionState) (data : Json) : SessionState × List Event :=
  if fieldIsStr data "type" "system" then handleSystem st data
  else if fieldIsStr data "type" "assistant" then handleAssistant st data
  else if fieldIsStr data "type" "content_block_start" then handleContentBlockStart st data
  else if fieldIsStr data "type" "content_block_delta" then handleContentBlockDelta st data
  else if fieldIsStr data "type" "result" then handleResult st data
  else (st, [.other])

/-- The full `handleJsonLine`: parse, dispatch; a parse failure is caught and
emitted as a `parse_error` event, leaving all state untouched. -/
def handleJsonLine (st : SessionState) (line : List Char) : SessionState × List Event :=
  match parseJson line with
  | none => (st, [.parseError (String.mk line)])
  | some data => handleRecord st data

/-- JavaScript `String.prototype.trim` whitespace. -/
def isJsTrimWs (c : Char) : Bool :=
  c = ' ' || c = '\t' || c = '\n' || c = '\r' || c = '\x0b' || c = '\x0c'

def jsTrim (l : List Char) : List Char :=
  ((l.dropWhile isJsTrimWs).reverse.dropWhile isJsTrimWs).reverse

/-- One line of the stdout data handler loop:
`if (line.trim()) this.handleJsonLine(line.trim())`. -/
def decodeLineStep (st : SessionState) (l : List Char) : SessionState × List Event :=
  let t := jsTrim l
  if t.isEmpty then (st, [])
  else handleJsonLine st t

/-- The per-line loop of the stdout data handler. -/
def decodeLines (st : SessionState) (ls : List (List Char)) : SessionState × List Event :=
  accumFold decodeLineStep st ls

/-- Decoding a stream of already-parsed records (used to state
record-level properties). -/
def decodeRecords (st : SessionState) (rs : List Json) : SessionState × List Event :=
  accumFold handleRecord st rs

/-! ## Chunk buffering of the stdout data handler

`buffer += data; const lines = buffer.split('\n'); buffer = lines.pop()`.
`splitNl` returns the complete (newline-terminated) lines and the trailing
partial line kept in the buffer.
-/

def splitNl : List Char → List (List Char) × List Char
  | [] => ([], [])
  | c :: cs =>
    let r := splitNl cs
    if c = '\n' then ([] :: r.1, r.2)
    else
      match r.1 with
      | [] => ([], c :: r.2)
      | l :: ls => ((c :: l) :: ls, r.2)

/-- Feeding a sequence of data chunks through the buffering handler,
starting from the empty buffer: returns all complete lines surfaced, in
order, and the final partial-line buffer. -/
def feedChunks (chunks : List (List Char)) : List (List Char) × List Char :=
  chunks.foldl (fun acc data =>
    let r := splitNl (acc.2 ++ data)
    (acc.1 ++ r.1, r.2)) ([], [])

/-- Full structured-mode decoding of a chunked stream, at the level of
the already-decoded character chunks produced by `data.toString()`. -/
def decodeChunks (st : SessionState) (chunks : List (List Char)) : SessionState × List Event :=
  decodeLines st (feedChunks chunks).1

/-! ### UTF-8 decoding of the raw data chunks

The handler receives `Buffer` objects and runs `buffer += data.toString()`:
each chunk of BYTES is decoded to a string independently, before the line
split.  `utf8Decode` models the Node `Buffer.toString` UTF-8 decoder: the
WHATWG algorithm, emitting one U+FFFD replacement character per maximal
invalid subpart, restarting at the offending byte; a sequence truncated at
a chunk end also becomes U+FFFD.  Because each chunk is decoded on its
own, a multi-byte character straddling a chunk boundary is destroyed.
-/

def replacementChar : Char := Char.ofNat 0xFFFD

/-- A UTF-8 continuation byte. -/
def isCont (b : Nat) : Bool := 0x80 ≤ b ∧ b ≤ 0xBF

/-- WHATWG UTF-8 decoding of one chunk, with U+FFFD substitution; fuel
is structural (each step consumes at least one byte, so the byte count is
always enough fuel). -/
def utf8DecodeFuel : Nat → List Nat → List Char
  | 0, _ => []
  | _, [] => []
  | fuel + 1, b :: rest =>
    if b < 0x80 then Char.ofNat b :: utf8DecodeFuel fuel rest
    else if b < 0xC2 then replacementChar :: utf8DecodeFuel fuel rest
    else if b ≤ 0xDF then
      match rest with
      | [] => [replacementChar]
      | c1 :: r1 =>
          if isCont c1 then
            Char.ofNat ((b - 0xC0) * 0x40 + (c1 - 0x80)) :: utf8DecodeFuel fuel r1
          else replacementChar :: utf8DecodeFuel fuel (c1 :: r1)
    else if b ≤ 0xEF then
      let lo := if b = 0xE0 then 0xA0 else 0x80
      let hi := if b = 0xED then 0x9F else 0xBF
      match rest with
      | [] => [replacementChar]
      | c1 :: r1 =>
          if lo ≤ c1 ∧ c1 ≤ hi then
            match r1 with
            | [] => [replacementChar]
            | c2 :: r2 =>
                if isCont c2 then
                  Char.ofNat ((b - 0xE0) * 0x1000 + (c1 - 0x80) * 0x40 + (c2 - 0x80))
                    :: utf8DecodeFuel fuel r2
                else replacementChar :: utf8DecodeFuel fuel (c2 :: r2)
          else replacementChar :: utf8DecodeFuel fuel (c1 :: r1)
    else if b ≤ 0xF4 then
      let lo := if b = 0xF0 then 0x90 else 0x80
      let hi := if b = 0xF4 then 0x8F else 0xBF
      match rest with
      | [] => [replacementChar]
      | c1 :: r1 =>
          if lo ≤ c1 ∧ c1 ≤ hi then
            match r1 with
            | [] => [replacementChar]
            | c2 :: r2 =>
                if isCont c2 then
                  match r2 with
                  | [] => [replacementChar]
                  | c3 :: r3 =>
                      if isCont c3 then
                        Char.ofNat ((b - 0xF0) * 0x40000 + (c1 - 0x80) * 0x1000
                            + (c2 - 0x80) * 0x40 + (c3 - 0x80)) :: utf8DecodeFuel fuel r3
                      else replacementChar :: utf8DecodeFuel fuel (c3 :: r3)
                else replacementChar :: utf8DecodeFuel fuel (c2 :: r2)
          else replacementChar :: utf8DecodeFuel fuel (c1 :: r1)
    else replacementChar :: utf8DecodeFuel fuel rest

/-- Model of the `Buffer.toString` UTF-8 decode of one data chunk. -/
def utf8Decode (bytes : List Nat) : List Char := utf8DecodeFuel bytes.length bytes

/-- UTF-8 encoding of one character (Char is always a scalar value). -/
def utf8Encode (c : Char) : List Nat :=
  let n := c.toNat
  if n < 0x80 then [n]
  else if n < 0x800 then [0xC0 + n / 0x40, 0x80 + n % 0x40]
  else if n < 0x10000 then
    [0xE0 + n / 0x1000, 0x80 + (n / 0x40) % 0x40, 0x80 + n % 0x40]
  else
    [0xF0 + n / 0x40000, 0x80 + (n / 0x1000) % 0x40,
     0x80 + (n / 0x40) % 0x40, 0x80 + n % 0x40]

/-- UTF-8 bytes of a character sequence. -/
def strToBytes (l : List Char) : List Nat :=
  l.foldr (fun c acc => utf8Encode c ++ acc) []

/-- The stdout data handler over raw byte chunks: each chunk passes
through `data.toString()` independently, then through the line buffer. -/
def feedChunksBytes (chunks : List (List Nat)) : List (List Char) × List Char :=
  feedChunks (chunks.map utf8Decode)

/-- Full structured-mode decoding of a chunked raw byte stream. -/
def decodeChunksBytes (st : SessionState) (chunks : List (List Nat)) :
    SessionState × List Event :=
  decodeChunks st (chunks.map utf8Decode)

/-- An example wire line whose text payload is the two-byte UTF-8
character U+00E9: the ASCII bytes around the explicit pair 0xC3 0xA9,
terminated by a newline. -/
def exampleLinePrefix : List Char :=
  ("\x7b\"type\":\"assistant\",\"message\":\x7b\"content\":"
    ++ "[\x7b\"type\":\"text\",\"text\":\"").toList

def exampleLineSuffix : List Char := "\"\x7d]\x7d\x7d\n".toList

def exampleLineBytes : List Nat :=
  strToBytes exampleLinePrefix ++ [0xC3, 0xA9] ++ strToBytes exampleLineSuffix

/-- The byte offset falling between 0xC3 and 0xA9, inside the two-byte
character. -/
def exampleMidSplit : Nat := (strToBytes exampleLinePrefix).length + 1


/-! ## send and the turn life cycle

`send(message)` throws `Already processing a message. Please wait.` when a
turn is in flight; otherwise it marks the turn in flight, installs the
promise callbacks, clears the output accumulator, spawns the child and
arms the timeout.  The close, error and timeout callbacks deliver at most
one terminal outcome through the null-guarded promise callbacks.
-/

inductive SendError where
  | alreadyProcessing : SendError
deriving DecidableEq

/-- Entry of `ClaudeSession.send`: rejected calls return the state
untouched (no queue exists to hold the input). -/
def send (st : SessionState) : SessionState × Option SendError :=
  if st.isProcessing then (st, some .alreadyProcessing)
  else
    ({ st with isProcessing := true, pendingResolve := true, pendingReject := true,
               currentOutput := "", hasProcess := true, timerArmed := true }, none)

/-- Runs `n` interleaved `send` attempts on one session (the check and the flag
write of `send` run synchronously, so interleavings serialize).  Returns
the final state, the number of accepted calls and the number of rejected
calls. -/
def sendN : SessionState → Nat → SessionState × Nat × Nat
  | st, 0 => (st, 0, 0)
  | st, n + 1 =>
      let r := send st
      let rest := sendN r.1 n
      (rest.1,
       (if r.2.isNone then 1 else 0) + rest.2.1,
       (if r.2.isSome then 1 else 0) + rest.2.2)

/-- The three terminal callbacks that can race for one turn. -/
inductive ProcEvent where
  | close (code : Int) : ProcEvent
  | perror (message : String) : ProcEvent
  | timeout : ProcEvent

/-- The `close` handler: stops processing, drops the process handle,
clears the timer, and resolves the pending promise with the accumulated
output — the exit code is ignored. -/
def onClose (st : SessionState) (_code : Int) : SessionState :=
  let st1 := { st with isProcessing := false, hasProcess := false, timerArmed := false }
  if st1.pendingResolve then
    { st1 with outcomes := st1.outcomes ++ [.success st1.currentOutput st1.sessionId],
               pendingResolve := false, pendingReject := false }
  else st1

/-- The `error` handler: rejects the pending promise with the error. -/
def onError (st : SessionState) (message : String) : SessionState :=
  let st1 := { st with isProcessing := false, hasProcess := false, timerArmed := false }
  if st1.pendingReject then
    { st1 with outcomes := st1.outcomes ++ [.failure message],
               pendingResolve := false, pendingReject := false }
  else st1

/-- The timeout callback: only acts while a process handle exists; kills
the child (the handle itself is not cleared in this handler) and rejects
the pending promise. -/
def onTimeout (st : SessionState) : SessionState :=
  if st.hasProcess then
    if st.pendingReject then
      { st with outcomes := st.outcomes ++ [.failure "Response timeout"],
                pendingResolve := false, pendingReject := false }
    else st
  else st

def stepEvent (st : SessionState) : ProcEvent → SessionState
  | .close code => onClose st code
  | .perror message => onError st message
  | .timeout => onTimeout st

def runEvents (st : SessionState) (evs : List ProcEvent) : SessionState :=
  evs.foldl stepEvent st

/-- Number of failure outcomes delivered so far. -/
def failureCount (st : SessionState) : Nat :=
  (st.outcomes.filter (fun o => match o with | .failure _ => true | _ => false)).length

/-! ## Throttled emitter of the Discord streaming loop

`DiscordBot.handleMessage` keeps `streamBlocks`, `lastUpdateTime`
(initialized to the turn start time) and edits the reply through
`updateMessage`, which returns early unless 1000 ms have passed; after
`session.send` resolves, a final edit is made unconditionally from the
full `streamBlocks`.  Delivery payloads are snapshots of the accumulated
blocks.
-/

structure StreamBlock where
  btype : String
  content : String
deriving DecidableEq

structure StreamUIState where
  lastUpdateTime : Nat
  blocks : List StreamBlock
  deliveries : List (List StreamBlock)

/-- The `updateMessage` helper: the non-final throttle gate and the edit. -/
def updateMessage (st : StreamUIState) (now : Nat) (final : Bool) : StreamUIState :=
  if !final && now - st.lastUpdateTime < 1000 then st
  else { st with lastUpdateTime := now, deliveries := st.deliveries ++ [st.blocks] }

/-- The decoder-side events the loop subscribes to, each carrying its
arrival time; `tick` covers the 800 ms animation interval and the
`status` listener, which attempt an update without pushing a block. -/
inductive StreamEvent where
  | text (t : Nat) (s : String) : StreamEvent
  | thinking (t : Nat) (s : String) : StreamEvent
  | toolUse (t : Nat) (name : String) (status : String) : StreamEvent
  | tick (t : Nat) : StreamEvent

def StreamEvent.time : StreamEvent → Nat
  | .text t _ => t
  | .thinking t _ => t
  | .toolUse t _ _ => t
  | .tick t => t

/-- The block a listener pushes onto `streamBlocks`, if any
(`onTool` pushes `tool.status || tool.name`). -/
def StreamEvent.block : StreamEvent → Option StreamBlock
  | .text _ s => some ⟨"text", s⟩
  | .thinking _ s => some ⟨"thinking", s⟩
  | .toolUse _ name status => some ⟨"tool", if status = "" then name else status⟩
  | .tick _ => none

def streamStep (st : StreamUIState) (e : StreamEvent) : StreamUIState :=
  match e.block with
  | some b => updateMessage { st with blocks := st.blocks ++ [b] } e.time false
  | none => updateMessage st e.time false

/-- One turn of the streaming loop, starting at `t0` with the state the
handler initializes (`lastUpdateTime = Date.now()`, empty blocks). -/
def runStream (t0 : Nat) (evs : List StreamEvent) : StreamUIState :=
  evs.foldl streamStep { lastUpdateTime := t0, blocks := [], deliveries := [] }

/-- The unconditional final edit after `session.send` resolves: its
payload is rendered from the entire `streamBlocks`. -/
def finalDelivery (st : StreamUIState) : List StreamBlock := st.blocks

/-! ## Session registry

`const sessions = new Map()` keyed by the string `channelId_userId`;
modeled as an association list with unique keys maintained by `mapSet`.
-/

def sessionKey (channelId userId : String) : String := channelId ++ "_" ++ userId

abbrev SessionMap := List (String × SessionState)

def mapGet (m : SessionMap) (k : String) : Option SessionState :=
  match m with
  | [] => none
  | (k', v) :: rest => if k' = k then some v else mapGet rest k

def mapSet (m : SessionMap) (k : String) (v : SessionState) : SessionMap :=
  match m with
  | [] => [(k, v)]
  | (k', v') :: rest => if k' = k then (k, v) :: rest else (k', v') :: mapSet rest k v

def mapDelete (m : SessionMap) (k : String) : SessionMap :=
  match m with
  | [] => []
  | (k', v') :: rest => if k' = k then rest else (k', v') :: mapDelete rest k

/-- The registry operation `getOrCreateSession(channelId, userId, options)`: create and store on
a miss; on a hit, update the stored sessionId and workingDir from truthy
options (the source mutates the stored object, modeled by writing back). -/
def getOrCreateSession (m : SessionMap) (channelId userId : String)
    (options : SessionOptions) : SessionMap × SessionState :=
  let key := sessionKey channelId userId
  match mapGet m key with
  | none =>
      let session := mkSession { sessionId := options.sessionId, workingDir := options.workingDir }
      (mapSet m key session, session)
  | some session =>
      let session := if optTruthy options.sessionId then
          { session with sessionId := options.sessionId } else session
      let session :=
        match options.workingDir with
        | some wd => if wd = "" then session else { session with workingDir := wd }
        | none => session
      (mapSet m key session, session)

/-- The registry lookup `getSession(channelId, userId)`. -/
def getSession (m : SessionMap) (channelId userId : String) : Option SessionState :=
  mapGet m (sessionKey channelId userId)

/-- The registry teardown `removeSession(channelId, userId)`: kill if present, delete, report
whether a session existed. -/
def removeSession (m : SessionMap) (channelId userId : String) : SessionMap × Bool :=
  let key := sessionKey channelId userId
  let found := mapGet m key
  (mapDelete m key, found.isSome)

/-! ## splitMessage of the formatter

`splitMessage(content, maxLength = 2000)`: identical in both formatter
variants.  `lastIndexOf(ch, pos)` is modeled with `Option Nat` standing
for the JavaScript `-1` sentinel, and the float comparison
`splitIndex < maxLength * 0.5` becomes `2 * i < maxLength`.  The loop is
given explicit fuel; `content.length` steps suffice whenever
`maxLength ≥ 1` (proved below).
-/

/-- Greatest index `i ≤ pos` with `l[i] = ch`, the JavaScript
`lastIndexOf(ch, pos)`. -/
def lastIndexOfAt (l : List Char) (ch : Char) : Nat → Option Nat
  | 0 => if l.get? 0 = some ch then some 0 else none
  | p + 1 => if l.get? (p + 1) = some ch then some (p + 1) else lastIndexOfAt l ch p

/-- JavaScript `trimStart` whitespace removal. -/
def jsTrimStart (l : List Char) : List Char := l.dropWhile isJsTrimWs

/-- The space fallback of the split-point selection: the last space at or
before `maxLength`, or the forced split at `maxLength` when there is no
usable space (`-1` or below half of `maxLength`). -/
def spaceSplitIndex (rem : List Char) (maxLength : Nat) : Nat :=
  match lastIndexOfAt rem ' ' maxLength with
  | none => maxLength
  | some j => if 2 * j < maxLength then maxLength else j

/-- The split-point selection of the loop body: the last newline at or
before `maxLength` when it lies in the upper half, otherwise the space
fallback (the float guard `splitIndex < maxLength * 0.5` is the integer
test `2 * splitIndex < maxLength`). -/
def computeSplitIndex (rem : List Char) (maxLength : Nat) : Nat :=
  match lastIndexOfAt rem '\n' maxLength with
  | none => spaceSplitIndex rem maxLength
  | some i => if 2 * i < maxLength then spaceSplitIndex rem maxLength else i

/-- The `while (remaining.length > 0)` loop. -/
def splitLoop (maxLength : Nat) : Nat → List Char → List (List Char)
  | _, [] => []
  | 0, _ :: _ => []
  | fuel + 1, rem =>
      if rem.length ≤ maxLength then [rem]
      else
        let idx := computeSplitIndex rem maxLength
        rem.take idx :: splitLoop maxLength fuel (jsTrimStart (rem.drop idx))

def splitMessage (content : List Char) (maxLength : Nat) : List (List Char) :=
  if content.length ≤ maxLength then [content]
  else splitLoop maxLength content.length content


/-- Concatenation, in arrival order, of the payloads of the `text`
events in an event list. -/
def concatTexts (evs : List Event) : String :=
  evs.foldl (fun acc e => match e with | .text s => acc ++ s | _ => acc) ""

/-- A record that the `result` case uses to replace the accumulated
output: kind `result` carrying a truthy `result` field. -/
def isResultOverride (data : Json) : Bool :=
  fieldIsStr data "type" "result" && jsTruthy (data.getField "result")

/-- The final-output payload of a `result` record. -/
def resultText (data : Json) : String := jsFieldString data "result"

/-! # Theorems -/

/-! ## Generic lemmas about event-accumulating folds -/

theorem accumFold_shift (f : σ → α → σ × List β) (xs : List α) :
    ∀ (s : σ) (evs : List β),
      xs.foldl (fun acc x => let r := f acc.1 x; (r.1, acc.2 ++ r.2)) (s, evs)
        = ((accumFold f s xs).1, evs ++ (accumFold f s xs).2) := by
  induction xs with
  | nil => intro s evs; simp [accumFold]
  | cons x xs ih =>
      intro s evs
      simp only [accumFold, List.foldl_cons, List.nil_append] at *
      rw [ih ((f s x).1) (evs ++ (f s x).2), ih ((f s x).1) ((f s x).2)]
      simp

theorem accumFold_nil (f : σ → α → σ × List β) (s : σ) :
    accumFold f s [] = (s, []) := rfl

theorem accumFold_cons (f : σ → α → σ × List β) (s : σ) (x : α) (xs : List α) :
    accumFold f s (x :: xs)
      = ((accumFold f (f s x).1 xs).1, (f s x).2 ++ (accumFold f (f s x).1 xs).2) := by
  simp only [accumFold, List.foldl_cons]
  exact accumFold_shift f xs (f s x).1 ((f s x).2)

theorem accumFold_append (f : σ → α → σ × List β) (xs ys : List α) :
    ∀ s : σ,
      accumFold f s (xs ++ ys)
        = ((accumFold f (accumFold f s xs).1 ys).1,
           (accumFold f s xs).2 ++ (accumFold f (accumFold f s xs).1 ys).2) := by
  induction xs with
  | nil => intro s; simp [accumFold_nil]
  | cons x xs ih =>
      intro s
      rw [List.cons_append, accumFold_cons, accumFold_cons, ih]
      simp

/-! ## The line splitter -/

theorem splitNl_cons_nl (cs : List Char) :
    splitNl ('\n' :: cs) = ([] :: (splitNl cs).1, (splitNl cs).2) := by
  simp [splitNl]

theorem splitNl_cons_other (c : Char) (cs : List Char) (hc : ¬c = '\n') :
    splitNl (c :: cs)
      = (match (splitNl cs).1 with
         | [] => ([], c :: (splitNl cs).2)
         | l :: ls => ((c :: l) :: ls, (splitNl cs).2)) := by
  simp [splitNl, hc]

theorem splitNl_append (x y : List Char) :
    splitNl (x ++ y)
      = ((splitNl x).1 ++ (splitNl ((splitNl x).2 ++ y)).1,
         (splitNl ((splitNl x).2 ++ y)).2) := by
  induction x with
  | nil => simp [splitNl]
  | cons c x ih =>
    rcases hA : splitNl x with ⟨A1, A2⟩
    rcases hB : splitNl (A2 ++ y) with ⟨B1, B2⟩
    have ih' : splitNl (x ++ y) = (A1 ++ B1, B2) := by
      rw [ih, hA]
      simp [hB]
    rw [List.cons_append]
    by_cases hc : c = '\n'
    · subst hc
      rw [splitNl_cons_nl, splitNl_cons_nl, ih', hA]
      simp [hB]
    · rw [splitNl_cons_other c (x ++ y) hc, splitNl_cons_other c x hc, ih', hA]
      cases A1 with
      | nil =>
        simp only [List.nil_append]
        rw [List.cons_append, splitNl_cons_other c (A2 ++ y) hc, hB]
      | cons a as => simp [hB]

theorem feedChunks_single (s : List Char) : feedChunks [s] = splitNl s := by
  simp [feedChunks]

theorem feedChunks_pair (t1 t2 : List Char) :
    feedChunks [t1, t2]
      = ((splitNl t1).1 ++ (splitNl ((splitNl t1).2 ++ t2)).1,
         (splitNl ((splitNl t1).2 ++ t2)).2) := by
  simp [feedChunks]

/-- C2 counterexample: the byte stream holding one assistant text record
whose payload is the two-byte character U+00E9, split at the byte offset
falling between 0xC3 and 0xA9, is decoded chunk-by-chunk, so each half of
the character becomes U+FFFD and the decoded event sequence differs from
the unsplit stream: the text delta is corrupted. -/
theorem utf8_split_changes_events :
    (decodeChunksBytes (mkSession {}) [exampleLineBytes]).2 = [Event.text "\u00E9"]
      ∧ (decodeChunksBytes (mkSession {})
            [exampleLineBytes.take exampleMidSplit,
             exampleLineBytes.drop exampleMidSplit]).2
          = [Event.text "\uFFFD\uFFFD"]
      ∧ ¬((decodeChunksBytes (mkSession {})
            [exampleLineBytes.take exampleMidSplit,
             exampleLineBytes.drop exampleMidSplit]).2
          = (decodeChunksBytes (mkSession {}) [exampleLineBytes]).2) := by
  have h1 : (decodeChunksBytes (mkSession {}) [exampleLineBytes]).2
      = [Event.text "\u00E9"] := by rfl
  have h2 : (decodeChunksBytes (mkSession {})
        [exampleLineBytes.take exampleMidSplit,
         exampleLineBytes.drop exampleMidSplit]).2
      = [Event.text "\uFFFD\uFFFD"] := by rfl
  refine ⟨h1, h2, ?_⟩
  rw [h1, h2]
  decide

/-- C2 amended: chunk-boundary invariance holds exactly at UTF-8
character boundaries — whenever the two chunks decode to the decoded
unsplit stream (no multi-byte character straddles the cut), the two-chunk
run surfaces the same complete lines, keeps the same partial-line buffer,
and yields the same decoded events and state as the unsplit stream; a
record split across two reads is held in the buffer until its newline
arrives and is then decoded once.  A split inside a multi-byte character
is decoded to U+FFFD per chunk and breaks the invariance. -/
theorem chunk_split_invariance_bytes (s : List Nat) (i : Nat) (st : SessionState)
    (h : utf8Decode (s.take i) ++ utf8Decode (s.drop i) = utf8Decode s) :
    feedChunksBytes [s.take i, s.drop i] = feedChunksBytes [s]
      ∧ decodeChunksBytes st [s.take i, s.drop i] = decodeChunksBytes st [s] := by
  have hfeed : feedChunksBytes [s.take i, s.drop i] = feedChunksBytes [s] := by
    unfold feedChunksBytes
    simp only [List.map_cons, List.map_nil]
    rw [feedChunks_pair, feedChunks_single, ← splitNl_append, h]
  exact ⟨hfeed,
    congrArg (fun (p : List (List Char) × List Char) => decodeLines st p.1) hfeed⟩

/-- Witness for the amended C2: the same stream split exactly before the
two-byte character is a character-boundary split, and the two-chunk
decode agrees with the unsplit decode. -/
theorem chunk_split_invariance_bytes_witness :
    feedChunksBytes
        [exampleLineBytes.take (strToBytes exampleLinePrefix).length,
         exampleLineBytes.drop (strToBytes exampleLinePrefix).length]
      = feedChunksBytes [exampleLineBytes]
    ∧ decodeChunksBytes (mkSession {})
        [exampleLineBytes.take (strToBytes exampleLinePrefix).length,
         exampleLineBytes.drop (strToBytes exampleLinePrefix).length]
      = decodeChunksBytes (mkSession {}) [exampleLineBytes] :=
  chunk_split_invariance_bytes exampleLineBytes (strToBytes exampleLinePrefix).length
    (mkSession {}) (by rfl)

/-! ## C1: single-flight send -/

theorem sendN_busy (n : Nat) : ∀ st : SessionState, st.isProcessing = true →
    sendN st n = (st, 0, n) := by
  induction n with
  | zero => intro st _; rfl
  | succ n ih =>
      intro st h
      simp [sendN, send, h, ih st h]
      omega

/-- C1: with a turn already in flight, `send` fails immediately with the
already-processing error and returns the state unchanged (nothing is
queued); starting idle, `n ≥ 1` interleaved `send` calls produce exactly
one acceptance and `n - 1` rejections. -/
theorem send_single_flight (st : SessionState) :
    (st.isProcessing = true → send st = (st, some SendError.alreadyProcessing))
      ∧ (st.isProcessing = false → ∀ n, 1 ≤ n →
          (sendN st n).2.1 = 1 ∧ (sendN st n).2.2 = n - 1) := by
  constructor
  · intro h
    simp [send, h]
  · intro h n hn
    cases n with
    | zero => omega
    | succ m =>
        have hsend : send st
            = ({ st with isProcessing := true, pendingResolve := true, pendingReject := true,
                         currentOutput := "", hasProcess := true, timerArmed := true }, none) := by
          simp [send, h]
        have hbusy := sendN_busy m
          { st with isProcessing := true, pendingResolve := true, pendingReject := true,
                    currentOutput := "", hasProcess := true, timerArmed := true } (by rfl)
        simp [sendN, hsend, hbusy]

/-- Witness for C1 at a fresh session and three concurrent calls. -/
theorem send_single_flight_witness :
    (send (send (mkSession {})).1 = ((send (mkSession {})).1, some SendError.alreadyProcessing))
      ∧ ((sendN (mkSession {}) 3).2.1 = 1 ∧ (sendN (mkSession {}) 3).2.2 = 3 - 1) :=
  ⟨(send_single_flight (send (mkSession {})).1).1 (by rfl),
   (send_single_flight (mkSession {})).2 (by rfl) 3 (by decide)⟩

/-! ## C5 / C6: terminal resolution of a turn -/

theorem stepEvent_pending (st : SessionState) (e : ProcEvent)
    (h1 : st.pendingResolve = true) (h2 : st.pendingReject = true)
    (h3 : st.hasProcess = true) :
    (stepEvent st e).outcomes.length = st.outcomes.length + 1
      ∧ (stepEvent st e).pendingResolve = false
      ∧ (stepEvent st e).pendingReject = false := by
  cases e <;> simp [stepEvent, onClose, onError, onTimeout, h1, h2, h3]

theorem stepEvent_done (st : SessionState) (e : ProcEvent)
    (h1 : st.pendingResolve = false) (h2 : st.pendingReject = false) :
    (stepEvent st e).outcomes = st.outcomes
      ∧ (stepEvent st e).pendingResolve = false
      ∧ (stepEvent st e).pendingReject = false := by
  cases e <;> simp [stepEvent, onClose, onError, onTimeout, h1, h2]

theorem runEvents_done (evs : List ProcEvent) : ∀ st : SessionState,
    st.pendingResolve = false → st.pendingReject = false →
    (runEvents st evs).outcomes = st.outcomes := by
  induction evs with
  | nil => intro st _ _; rfl
  | cons e evs ih =>
      intro st h1 h2
      have h := stepEvent_done st e h1 h2
      show (runEvents (stepEvent st e) evs).outcomes = st.outcomes
      rw [ih _ h.2.1 h.2.2, h.1]

/-- C5: a turn opened by `send` receives exactly one terminal outcome
under every nonempty interleaving of the close, error, and timeout
callbacks (each real execution fires at least one of them). -/
theorem turn_resolved_exactly_once (st : SessionState) (evs : List ProcEvent)
    (hp : st.isProcessing = false) (hne : evs ≠ []) :
    (runEvents (send st).1 evs).outcomes.length = st.outcomes.length + 1 := by
  have hsend : (send st).1
      = { st with isProcessing := true, pendingResolve := true, pendingReject := true,
                  currentOutput := "", hasProcess := true, timerArmed := true } := by
    simp [send, hp]
  cases evs with
  | nil => exact absurd rfl hne
  | cons e evs =>
      have hstep := stepEvent_pending (send st).1 e
        (by rw [hsend]) (by rw [hsend]) (by rw [hsend])
      have hdone := runEvents_done evs (stepEvent (send st).1 e) hstep.2.1 hstep.2.2
      show (runEvents (stepEvent (send st).1 e) evs).outcomes.length = st.outcomes.length + 1
      rw [hdone, hstep.1, hsend]

/-- Witness for C5: a timeout racing a later close still yields exactly
one outcome. -/
theorem turn_resolved_exactly_once_witness :
    (runEvents (send (mkSession {})).1 [ProcEvent.timeout, ProcEvent.close 0]).outcomes.length
      = (mkSession {}).outcomes.length + 1 :=
  turn_resolved_exactly_once (mkSession {}) [ProcEvent.timeout, ProcEvent.close 0]
    (by rfl) (List.cons_ne_nil _ _)

/-- C6 counterexample: the child exits with nonzero code 1 while the turn
is pending, and the turn is resolved as a success (the exit code is never
consulted), not as the failure the claim requires. -/
theorem nonzero_exit_resolves_success :
    (runEvents (send (mkSession {})).1 [ProcEvent.close 1]).outcomes
        = [TurnOutcome.success "" none]
      ∧ failureCount (runEvents (send (mkSession {})).1 [ProcEvent.close 1]) = 0 := by
  constructor <;> rfl

/-- C6 amended: on child close while a turn is pending, the turn resolves
as a success carrying the accumulated output and stored identity,
whatever the exit code; the close handler never delivers a failure. -/
theorem close_resolution_policy (st : SessionState) (code : Int)
    (h : st.pendingResolve = true) :
    (onClose st code).outcomes
        = st.outcomes ++ [TurnOutcome.success st.currentOutput st.sessionId]
      ∧ failureCount (onClose st code) = failureCount st := by
  constructor
  · simp [onClose, h]
  · simp [onClose, failureCount, h, List.filter_append]

/-- Witness for the amended C6 at a fresh turn and exit code 1. -/
theorem close_resolution_policy_witness :
    (onClose (send (mkSession {})).1 1).outcomes
        = (send (mkSession {})).1.outcomes
          ++ [TurnOutcome.success (send (mkSession {})).1.currentOutput
                (send (mkSession {})).1.sessionId]
      ∧ failureCount (onClose (send (mkSession {})).1 1)
          = failureCount (send (mkSession {})).1 :=
  close_resolution_policy (send (mkSession {})).1 1 (by rfl)

/-! ## C4: the identity latch -/

theorem fieldIsStr_unique (j : Json) (k a b : String) (h : fieldIsStr j k a = true)
    (hab : ¬a = b) : fieldIsStr j k b = false := by
  unfold fieldIsStr at *
  rcases hv : j.getField k with _ | v
  · simp_all
  · cases v <;> simp_all

theorem latchSessionId_latched (st : SessionState) (data : Json)
    (h : optTruthy st.sessionId = true) : latchSessionId st data = (st, []) := by
  unfold latchSessionId
  simp [h]

theorem handleBlock_sessionId (st : SessionState) (b : Json) :
    (handleBlock st b).1.sessionId = st.sessionId := by
  unfold handleBlock
  split
  · split_ifs <;> rfl
  · rfl

theorem handleBlocks_sessionId (blocks : List Json) : ∀ st : SessionState,
    (accumFold handleBlock st blocks).1.sessionId = st.sessionId := by
  induction blocks with
  | nil => intro st; rfl
  | cons b bs ih =>
      intro st
      rw [accumFold_cons]
      simp only []
      rw [ih (handleBlock st b).1, handleBlock_sessionId]

theorem assistantContent_sessionId (st : SessionState) (data : Json) :
    (assistantContent st data).1.sessionId = st.sessionId := by
  unfold assistantContent
  split
  · split_ifs
    · split
      · exact handleBlocks_sessionId _ _
      · rfl
    · rfl
  · rfl

theorem handleSystem_sessionId_latched (st : SessionState) (data : Json)
    (h : optTruthy st.sessionId = true) :
    (handleSystem st data).1.sessionId = st.sessionId := by
  unfold handleSystem
  split_ifs with hsub
  · simp [latchSessionId_latched st data h]
  · rfl

theorem handleAssistant_sessionId_latched (st : SessionState) (data : Json)
    (h : optTruthy st.sessionId = true) :
    (handleAssistant st data).1.sessionId = st.sessionId := by
  unfold handleAssistant
  have h1 : (assistantContent st data).1.sessionId = st.sessionId :=
    assistantContent_sessionId st data
  have h2 : optTruthy (assistantContent st data).1.sessionId = true := by rw [h1]; exact h
  simp [latchSessionId_latched _ data h2, h1]

theorem handleContentBlockStart_state (st : SessionState) (data : Json) :
    (handleContentBlockStart st data).1 = st := by
  unfold handleContentBlockStart
  split
  · split_ifs <;> rfl
  · rfl

theorem handleContentBlockDelta_sessionId (st : SessionState) (data : Json) :
    (handleContentBlockDelta st data).1.sessionId = st.sessionId := by
  unfold handleContentBlockDelta
  split
  · split_ifs <;> rfl
  · rfl

theorem handleResult_sessionId (st : SessionState) (data : Json) :
    (handleResult st data).1.sessionId
      = (if jsTruthy (data.getField "session_id")
         then some (jsFieldString data "session_id") else st.sessionId) := by
  unfold handleResult
  split_ifs <;> rfl

/-- C4 counterexample: after an `init` record latches identity `sid-a`, a
later `result` record carrying the different identity `sid-b` overwrites
the stored identity, so it does not stay equal to the first value. -/
theorem result_overwrites_identity :
    (decodeRecords (mkSession {})
        [Json.obj [("type", Json.str "system"), ("subtype", Json.str "init"),
                   ("session_id", Json.str "sid-a")],
         Json.obj [("type", Json.str "result"), ("session_id", Json.str "sid-b")]]).1.sessionId
        = some "sid-b"
      ∧ (decodeRecords (mkSession {})
          [Json.obj [("type", Json.str "system"), ("subtype", Json.str "init"),
                     ("session_id", Json.str "sid-a")]]).1.sessionId = some "sid-a" := by
  constructor <;> rfl

/-- C4 amended: once a nonempty identity is stored, `init` and
`assistant` records never change it (the latch); but a `result` record
carrying a truthy `session_id` overwrites it with that value. -/
theorem identity_latch_policy (st : SessionState) (data : Json) (x : String)
    (hx : st.sessionId = some x) (hne : ¬x = "") :
    (handleRecord st data).1.sessionId
      = (if fieldIsStr data "type" "result" && jsTruthy (data.getField "session_id")
         then some (jsFieldString data "session_id") else some x) := by
  have hopt : optTruthy st.sessionId = true := by
    rw [hx]
    simp [optTruthy, hne]
  unfold handleRecord
  by_cases h1 : fieldIsStr data "type" "system" = true
  · rw [if_pos h1, handleSystem_sessionId_latched st data hopt, hx,
        fieldIsStr_unique data "type" "system" "result" h1 (by decide)]
    simp
  by_cases h2 : fieldIsStr data "type" "assistant" = true
  · rw [if_neg h1, if_pos h2, handleAssistant_sessionId_latched st data hopt, hx,
        fieldIsStr_unique data "type" "assistant" "result" h2 (by decide)]
    simp
  by_cases h3 : fieldIsStr data "type" "content_block_start" = true
  · rw [if_neg h1, if_neg h2, if_pos h3, handleContentBlockStart_state st data, hx,
        fieldIsStr_unique data "type" "content_block_start" "result" h3 (by decide)]
    simp
  by_cases h4 : fieldIsStr data "type" "content_block_delta" = true
  · rw [if_neg h1, if_neg h2, if_neg h3, if_pos h4,
        handleContentBlockDelta_sessionId st data, hx,
        fieldIsStr_unique data "type" "content_block_delta" "result" h4 (by decide)]
    simp
  by_cases h5 : fieldIsStr data "type" "result" = true
  · rw [if_neg h1, if_neg h2, if_neg h3, if_neg h4, if_pos h5,
        handleResult_sessionId st data, hx, h5]
    simp
  · have h5f : fieldIsStr data "type" "result" = false := by
      revert h5
      cases fieldIsStr data "type" "result" <;> simp
    rw [if_neg h1, if_neg h2, if_neg h3, if_neg h4, if_neg h5, h5f]
    simp [hx]

/-- Witness for the amended C4: a latched session sees an `init` record
with a different identity and keeps the first value. -/
theorem identity_latch_policy_witness :
    (handleRecord { mkSession {} with sessionId := some "sid-a" }
        (Json.obj [("type", Json.str "system"), ("subtype", Json.str "init"),
                   ("session_id", Json.str "sid-b")])).1.sessionId
      = (if fieldIsStr (Json.obj [("type", Json.str "system"), ("subtype", Json.str "init"),
              ("session_id", Json.str "sid-b")]) "type" "result"
            && jsTruthy ((Json.obj [("type", Json.str "system"), ("subtype", Json.str "init"),
              ("session_id", Json.str "sid-b")]).getField "session_id")
         then some (jsFieldString (Json.obj [("type", Json.str "system"),
              ("subtype", Json.str "init"), ("session_id", Json.str "sid-b")]) "session_id")
         else some "sid-a") :=
  identity_latch_policy { mkSession {} with sessionId := some "sid-a" }
    (Json.obj [("type", Json.str "system"), ("subtype", Json.str "init"),
               ("session_id", Json.str "sid-b")]) "sid-a" (by rfl) (by decide)

/-! ## C3: final output of a turn -/

theorem concatTexts_go (evs : List Event) : ∀ init : String,
    evs.foldl (fun acc e => match e with | .text s => acc ++ s | _ => acc) init
      = init ++ concatTexts evs := by
  induction evs with
  | nil => intro init; simp [concatTexts]
  | cons e evs ih =>
      intro init
      simp only [concatTexts, List.foldl_cons]
      cases e <;>
        simp only [] <;>
        rw [ih, ih] <;>
        simp [String.append_assoc]

theorem concatTexts_append (a b : List Event) :
    concatTexts (a ++ b) = concatTexts a ++ concatTexts b := by
  unfold concatTexts
  rw [List.foldl_append, concatTexts_go]
  rfl

theorem handleBlock_output (st : SessionState) (b : Json) :
    (handleBlock st b).1.currentOutput
      = st.currentOutput ++ concatTexts (handleBlock st b).2 := by
  unfold handleBlock
  split
  · split_ifs <;> simp [concatTexts]
  · simp [concatTexts]

theorem handleBlocks_output (blocks : List Json) : ∀ st : SessionState,
    (accumFold handleBlock st blocks).1.currentOutput
      = st.currentOutput ++ concatTexts (accumFold handleBlock st blocks).2 := by
  induction blocks with
  | nil => intro st; simp [accumFold_nil, concatTexts]
  | cons b bs ih =>
      intro st
      rw [accumFold_cons]
      simp only []
      rw [concatTexts_append, ih (handleBlock st b).1, handleBlock_output,
          String.append_assoc]

theorem latchSessionId_output (st : SessionState) (data : Json) :
    (latchSessionId st data).1.currentOutput = st.currentOutput
      ∧ concatTexts (latchSessionId st data).2 = "" := by
  unfold latchSessionId
  split_ifs <;> simp [concatTexts]

theorem handleSystem_output (st : SessionState) (data : Json) :
    (handleSystem st data).1.currentOutput
      = st.currentOutput ++ concatTexts (handleSystem st data).2 := by
  unfold handleSystem
  split_ifs with hsub
  · simp only [concatTexts_append, (latchSessionId_output st data).1,
      (latchSessionId_output st data).2]
    simp [concatTexts]
  · simp [concatTexts]

theorem assistantContent_output (st : SessionState) (data : Json) :
    (assistantContent st data).1.currentOutput
      = st.currentOutput ++ concatTexts (assistantContent st data).2 := by
  unfold assistantContent
  split
  · split_ifs
    · split
      · exact handleBlocks_output _ _
      · simp [concatTexts]
    · simp [concatTexts]
  · simp [concatTexts]

theorem handleAssistant_output (st : SessionState) (data : Json) :
    (handleAssistant st data).1.currentOutput
      = st.currentOutput ++ concatTexts (handleAssistant st data).2 := by
  unfold handleAssistant
  simp only [concatTexts_append, (latchSessionId_output (assistantContent st data).1 data).1,
    (latchSessionId_output (assistantContent st data).1 data).2]
  rw [assistantContent_output]
  simp

theorem handleContentBlockStart_output (st : SessionState) (data : Json) :
    (handleContentBlockStart st data).1.currentOutput
      = st.currentOutput ++ concatTexts (handleContentBlockStart st data).2 := by
  unfold handleContentBlockStart
  split
  · split_ifs <;> simp [concatTexts]
  · simp [concatTexts]

theorem handleContentBlockDelta_output (st : SessionState) (data : Json) :
    (handleContentBlockDelta st data).1.currentOutput
      = st.currentOutput ++ concatTexts (handleContentBlockDelta st data).2 := by
  unfold handleContentBlockDelta
  split
  · split_ifs <;> simp [concatTexts]
  · simp [concatTexts]

theorem handleResult_output_noOverride (st : SessionState) (data : Json)
    (h : jsTruthy (data.getField "result") = false) :
    (handleResult st data).1.currentOutput
      = st.currentOutput ++ concatTexts (handleResult st data).2 := by
  unfold handleResult
  rw [h]
  split_ifs <;> simp_all [concatTexts]

theorem handleRecord_output (st : SessionState) (data : Json)
    (h : isResultOverride data = false) :
    (handleRecord st data).1.currentOutput
      = st.currentOutput ++ concatTexts (handleRecord st data).2 := by
  unfold handleRecord
  by_cases h1 : fieldIsStr data "type" "system" = true
  · rw [if_pos h1]; exact handleSystem_output st data
  by_cases h2 : fieldIsStr data "type" "assistant" = true
  · rw [if_neg h1, if_pos h2]; exact handleAssistant_output st data
  by_cases h3 : fieldIsStr data "type" "content_block_start" = true
  · rw [if_neg h1, if_neg h2, if_pos h3]; exact handleContentBlockStart_output st data
  by_cases h4 : fieldIsStr data "type" "content_block_delta" = true
  · rw [if_neg h1, if_neg h2, if_neg h3, if_pos h4]
    exact handleContentBlockDelta_output st data
  by_cases h5 : fieldIsStr data "type" "result" = true
  · rw [if_neg h1, if_neg h2, if_neg h3, if_neg h4, if_pos h5]
    have ht : jsTruthy (data.getField "result") = false := by
      unfold isResultOverride at h
      rw [h5] at h
      simpa using h
    exact handleResult_output_noOverride st data ht
  · rw [if_neg h1, if_neg h2, if_neg h3, if_neg h4, if_neg h5]
    simp [concatTexts]

theorem decodeRecords_output (rs : List Json) : ∀ st : SessionState,
    (∀ r ∈ rs, isResultOverride r = false) →
    (decodeRecords st rs).1.currentOutput
      = st.currentOutput ++ concatTexts (decodeRecords st rs).2 := by
  induction rs with
  | nil => intro st _; simp [decodeRecords, accumFold_nil, concatTexts]
  | cons r rs ih =>
      intro st hall
      unfold decodeRecords at *
      rw [accumFold_cons]
      simp only []
      rw [concatTexts_append, ih (handleRecord st r).1
            (fun q hq => hall q (List.mem_cons_of_mem _ hq)),
          handleRecord_output st r (hall r (List.mem_cons_self _ _)),
          String.append_assoc]

theorem handleRecord_override (st : SessionState) (data : Json)
    (hov : isResultOverride data = true) :
    (handleRecord st data).1.currentOutput = resultText data := by
  have h5 : fieldIsStr data "type" "result" = true := by
    unfold isResultOverride at hov
    exact (Bool.and_eq_true _ _ |>.mp hov).1
  have ht : jsTruthy (data.getField "result") = true := by
    unfold isResultOverride at hov
    exact (Bool.and_eq_true _ _ |>.mp hov).2
  unfold handleRecord handleResult
  rw [if_neg (by rw [fieldIsStr_unique data "type" "result" "system" h5 (by decide)]; simp),
      if_neg (by rw [fieldIsStr_unique data "type" "result" "assistant" h5 (by decide)]; simp),
      if_neg (by rw [fieldIsStr_unique data "type" "result" "content_block_start" h5 (by decide)]; simp),
      if_neg (by rw [fieldIsStr_unique data "type" "result" "content_block_delta" h5 (by decide)]; simp),
      if_pos h5, ht]
  split_ifs <;> simp_all [resultText]

/-- C3: starting a turn with an empty accumulator, if no decoded record
is a result override then the final output is exactly the concatenation,
in arrival order, of all text deltas; and a terminal result record
carrying final output makes the final output equal that payload,
replacing (not appending to) the accumulated text. -/
theorem final_output_semantics (st : SessionState) (rs : List Json)
    (hout : st.currentOutput = "") :
    ((∀ r ∈ rs, isResultOverride r = false) →
        (decodeRecords st rs).1.currentOutput = concatTexts (decodeRecords st rs).2)
      ∧ (∀ data : Json, isResultOverride data = true →
          (decodeRecords st (rs ++ [data])).1.currentOutput = resultText data) := by
  constructor
  · intro hall
    rw [decodeRecords_output rs st hall, hout, String.empty_append]
  · intro data hov
    unfold decodeRecords
    rw [accumFold_append]
    simp only []
    rw [show accumFold handleRecord (accumFold handleRecord st rs).1 [data]
          = ((handleRecord (accumFold handleRecord st rs).1 data).1,
             (handleRecord (accumFold handleRecord st rs).1 data).2 ++ []) from
        accumFold_cons _ _ _ _]
    exact handleRecord_override _ data hov

/-- Witness for C3: one assistant text record, with and without a
terminal result override. -/
theorem final_output_semantics_witness :
    (decodeRecords (mkSession {})
        [Json.obj [("type", Json.str "assistant"),
          ("message", Json.obj [("content", Json.arr
            [Json.obj [("type", Json.str "text"), ("text", Json.str "hello")]])])]]).1.currentOutput
      = concatTexts (decodeRecords (mkSession {})
          [Json.obj [("type", Json.str "assistant"),
            ("message", Json.obj [("content", Json.arr
              [Json.obj [("type", Json.str "text"), ("text", Json.str "hello")]])])]]).2
    ∧ (decodeRecords (mkSession {})
        ([Json.obj [("type", Json.str "assistant"),
           ("message", Json.obj [("content", Json.arr
             [Json.obj [("type", Json.str "text"), ("text", Json.str "hello")]])])]]
          ++ [Json.obj [("type", Json.str "result"), ("result", Json.str "final")]])).1.currentOutput
      = resultText (Json.obj [("type", Json.str "result"), ("result", Json.str "final")]) :=
  ⟨(final_output_semantics (mkSession {})
      [Json.obj [("type", Json.str "assistant"),
        ("message", Json.obj [("content", Json.arr
          [Json.obj [("type", Json.str "text"), ("text", Json.str "hello")]])])]]
      (by rfl)).1 (by decide),
   (final_output_semantics (mkSession {})
      [Json.obj [("type", Json.str "assistant"),
        ("message", Json.obj [("content", Json.arr
          [Json.obj [("type", Json.str "text"), ("text", Json.str "hello")]])])]]
      (by rfl)).2
      (Json.obj [("type", Json.str "result"), ("result", Json.str "final")]) (by decide)⟩

/-! ## C7: parse-error resilience -/

theorem decodeLineStep_malformed (st : SessionState) (l : List Char)
    (hne : (jsTrim l).isEmpty = false) (hbad : parseJson (jsTrim l) = none) :
    decodeLineStep st l = (st, [Event.parseError (String.mk (jsTrim l))]) := by
  unfold decodeLineStep handleJsonLine
  simp only []
  rw [hne, hbad]
  simp

/-- C7: a malformed line anywhere in the decoded line stream yields one
`parse_error` diagnostic carrying that (trimmed) raw line, leaves the
decoder state exactly as it was, and every later line decodes to the
events it would produce had the malformed line been absent. -/
theorem parse_error_resilience (st : SessionState) (ls1 ls2 : List (List Char))
    (l : List Char) (hne : (jsTrim l).isEmpty = false)
    (hbad : parseJson (jsTrim l) = none) :
    decodeLines st (ls1 ++ l :: ls2)
      = ((decodeLines (decodeLines st ls1).1 ls2).1,
         (decodeLines st ls1).2
           ++ Event.parseError (String.mk (jsTrim l))
              :: (decodeLines (decodeLines st ls1).1 ls2).2) := by
  unfold decodeLines
  rw [accumFold_append, accumFold_cons,
      decodeLineStep_malformed (accumFold decodeLineStep st ls1).1 l hne hbad]
  simp

/-- Witness for C7: the malformed line followed by a valid result line. -/
theorem parse_error_resilience_witness :
    decodeLines (mkSession {})
        ([] ++ "\x7bnot json".toList
          :: ["\x7b\"type\":\"result\",\"result\":\"ok\"\x7d".toList])
      = ((decodeLines (decodeLines (mkSession {}) []).1
            ["\x7b\"type\":\"result\",\"result\":\"ok\"\x7d".toList]).1,
         (decodeLines (mkSession {}) []).2
           ++ Event.parseError (String.mk (jsTrim "\x7bnot json".toList))
              :: (decodeLines (decodeLines (mkSession {}) []).1
                    ["\x7b\"type\":\"result\",\"result\":\"ok\"\x7d".toList]).2) :=
  parse_error_resilience (mkSession {}) []
    ["\x7b\"type\":\"result\",\"result\":\"ok\"\x7d".toList]
    "\x7bnot json".toList (by rfl) (by rfl)

/-! ## C8: the throttled emitter -/

theorem updateMessage_count (t0 d : Nat) (st : StreamUIState) (t : Nat)
    (ht : t ≤ t0 + d)
    (h1 : t0 + 1000 * st.deliveries.length ≤ st.lastUpdateTime)
    (h2 : st.lastUpdateTime ≤ t0 + d) :
    t0 + 1000 * (updateMessage st t false).deliveries.length
        ≤ (updateMessage st t false).lastUpdateTime
      ∧ (updateMessage st t false).lastUpdateTime ≤ t0 + d := by
  unfold updateMessage
  split_ifs with hc
  · exact ⟨h1, h2⟩
  · simp only [List.length_append, List.length_singleton]
    simp at hc
    constructor <;> omega

theorem updateMessage_blocks (st : StreamUIState) (t : Nat) (final : Bool) :
    (updateMessage st t final).blocks = st.blocks := by
  unfold updateMessage
  split_ifs <;> rfl

theorem streamStep_count (t0 d : Nat) (st : StreamUIState) (e : StreamEvent)
    (ht : e.time ≤ t0 + d)
    (h1 : t0 + 1000 * st.deliveries.length ≤ st.lastUpdateTime)
    (h2 : st.lastUpdateTime ≤ t0 + d) :
    t0 + 1000 * (streamStep st e).deliveries.length ≤ (streamStep st e).lastUpdateTime
      ∧ (streamStep st e).lastUpdateTime ≤ t0 + d := by
  unfold streamStep
  cases e.block
  · exact updateMessage_count t0 d st e.time ht h1 h2
  · exact updateMessage_count t0 d _ e.time ht h1 h2

theorem runStream_count (t0 d : Nat) (evs : List StreamEvent) :
    ∀ st : StreamUIState,
      (∀ e ∈ evs, e.time ≤ t0 + d) →
      t0 + 1000 * st.deliveries.length ≤ st.lastUpdateTime →
      st.lastUpdateTime ≤ t0 + d →
      t0 + 1000 * (evs.foldl streamStep st).deliveries.length
          ≤ (evs.foldl streamStep st).lastUpdateTime
        ∧ (evs.foldl streamStep st).lastUpdateTime ≤ t0 + d := by
  induction evs with
  | nil => intro st _ h1 h2; exact ⟨h1, h2⟩
  | cons e evs ih =>
      intro st hall h1 h2
      have hstep := streamStep_count t0 d st e (hall e (List.mem_cons_self _ _)) h1 h2
      exact ih (streamStep st e) (fun q hq => hall q (List.mem_cons_of_mem _ hq))
        hstep.1 hstep.2

theorem streamStep_blocks (st : StreamUIState) (e : StreamEvent) :
    (streamStep st e).blocks
      = st.blocks ++ (match e.block with | some b => [b] | none => []) := by
  unfold streamStep
  cases e.block
  · simp [updateMessage_blocks]
  · simp [updateMessage_blocks]

theorem runStream_blocks (evs : List StreamEvent) : ∀ st : StreamUIState,
    (evs.foldl streamStep st).blocks = st.blocks ++ evs.filterMap StreamEvent.block := by
  induction evs with
  | nil => intro st; simp
  | cons e evs ih =>
      intro st
      rw [List.foldl_cons, ih, streamStep_blocks]
      cases he : e.block <;> simp [List.filterMap_cons, he]

/-- C8: over a turn lasting `d` milliseconds, the throttled edit loop
delivers at most `⌈d/1000⌉` intermediate snapshots (the throttle interval
in the source is 1000 ms), and the single unconditional final delivery
made when the turn completes carries the full accumulated block list. -/
theorem throttle_bounds (t0 d : Nat) (evs : List StreamEvent)
    (ht : ∀ e ∈ evs, e.time ≤ t0 + d) :
    (runStream t0 evs).deliveries.length ≤ (d + 999) / 1000
      ∧ finalDelivery (runStream t0 evs) = evs.filterMap StreamEvent.block := by
  have hinv := runStream_count t0 d evs
    { lastUpdateTime := t0, blocks := [], deliveries := [] } ht (by simp) (by simp)
  constructor
  · have hle : t0 + 1000 * (runStream t0 evs).deliveries.length ≤ t0 + d := by
      unfold runStream
      omega
    omega
  · unfold finalDelivery runStream
    rw [runStream_blocks]
    simp

/-- Witness for C8: three events inside a 2500 ms window produce at most
three intermediate deliveries and a full final snapshot. -/
theorem throttle_bounds_witness :
    (runStream 0 [StreamEvent.text 100 "a", StreamEvent.tick 1200,
        StreamEvent.text 2400 "b"]).deliveries.length ≤ (2500 + 999) / 1000
      ∧ finalDelivery (runStream 0 [StreamEvent.text 100 "a", StreamEvent.tick 1200,
          StreamEvent.text 2400 "b"])
        = [StreamEvent.text 100 "a", StreamEvent.tick 1200,
           StreamEvent.text 2400 "b"].filterMap StreamEvent.block :=
  throttle_bounds 0 2500 [StreamEvent.text 100 "a", StreamEvent.tick 1200,
    StreamEvent.text 2400 "b"] (by decide)

/-! ## C9: the session registry key -/

theorem mapGet_mapSet_ne (m : SessionMap) (k k' : String) (v : SessionState)
    (h : ¬k = k') : mapGet (mapSet m k v) k' = mapGet m k' := by
  induction m with
  | nil => simp [mapSet, mapGet, h]
  | cons p rest ih =>
      rcases p with ⟨pk, pv⟩
      unfold mapSet
      split_ifs with hp
      · subst hp
        simp [mapGet, h]
      · unfold mapGet
        split_ifs with hpk
        · rfl
        · exact ih

theorem mapGet_mapDelete_ne (m : SessionMap) (k k' : String) (h : ¬k = k') :
    mapGet (mapDelete m k) k' = mapGet m k' := by
  induction m with
  | nil => rfl
  | cons p rest ih =>
      rcases p with ⟨pk, pv⟩
      unfold mapDelete
      split_ifs with hp
      · subst hp
        simp only [mapGet]
        rw [if_neg h]
      · unfold mapGet
        split_ifs with hpk
        · rfl
        · exact ih

/-- C9 counterexample: the distinct composite keys ("a_b", "c") and
("a", "b_c") concatenate to the same string key, so an operation on one
key observes and deletes the session stored for the other. -/
theorem registry_key_collision :
    ¬(("a_b", "c") = (("a", "b_c") : String × String))
      ∧ (getSession (getOrCreateSession [] "a_b" "c" {}).1 "a" "b_c").isSome = true
      ∧ (removeSession (getOrCreateSession [] "a_b" "c" {}).1 "a" "b_c").2 = true
      ∧ getSession (removeSession (getOrCreateSession [] "a_b" "c" {}).1 "a" "b_c").1
            "a_b" "c" = none :=
  ⟨by decide, by rfl, by rfl, by rfl⟩

/-- C9 amended: registry operations on one key never observe or alter the
session stored under another key, provided the two derived string keys
`channelId ++ "_" ++ userId` differ; component pairs whose concatenations
coincide alias to the same entry. -/
theorem getOrCreateSession_writes_own_key (m : SessionMap) (c u : String)
    (options : SessionOptions) :
    ∃ v : SessionState, (getOrCreateSession m c u options).1 = mapSet m (sessionKey c u) v := by
  unfold getOrCreateSession
  dsimp only []
  cases mapGet m (sessionKey c u)
  · exact ⟨_, rfl⟩
  · exact ⟨_, rfl⟩

theorem registry_distinct_key_independence (m : SessionMap) (c u cq uq : String)
    (options : SessionOptions) (h : ¬sessionKey c u = sessionKey cq uq) :
    getSession (getOrCreateSession m c u options).1 cq uq = getSession m cq uq
      ∧ getSession (removeSession m c u).1 cq uq = getSession m cq uq := by
  constructor
  · obtain ⟨v, hv⟩ := getOrCreateSession_writes_own_key m c u options
    unfold getSession
    rw [hv]
    exact mapGet_mapSet_ne m _ _ v h
  · unfold getSession removeSession
    exact mapGet_mapDelete_ne m _ _ h

/-- Witness for the amended C9 at two concrete distinct keys. -/
theorem registry_distinct_key_independence_witness :
    getSession (getOrCreateSession [] "chan1" "user1" {}).1 "chan2" "user2"
        = getSession [] "chan2" "user2"
      ∧ getSession (removeSession [] "chan1" "user1").1 "chan2" "user2"
        = getSession [] "chan2" "user2" :=
  registry_distinct_key_independence [] "chan1" "user1" "chan2" "user2" {} (by decide)

/-! ## C10: splitMessage -/

theorem lastIndexOfAt_le (l : List Char) (ch : Char) :
    ∀ (p i : Nat), lastIndexOfAt l ch p = some i → i ≤ p := by
  intro p
  induction p with
  | zero =>
      intro i h
      unfold lastIndexOfAt at h
      split_ifs at h
      rw [Option.some_inj] at h
      omega
  | succ p ih =>
      intro i h
      unfold lastIndexOfAt at h
      split_ifs at h
      · rw [Option.some_inj] at h
        omega
      · exact Nat.le_succ_of_le (ih i h)

theorem spaceSplitIndex_bounds (rem : List Char) (maxLength : Nat) (hm : 1 ≤ maxLength) :
    1 ≤ spaceSplitIndex rem maxLength ∧ spaceSplitIndex rem maxLength ≤ maxLength := by
  unfold spaceSplitIndex
  split
  · constructor <;> omega
  · next j hsp =>
      have hj := lastIndexOfAt_le rem ' ' maxLength j hsp
      split_ifs with h2 <;> constructor <;> omega

theorem computeSplitIndex_bounds (rem : List Char) (maxLength : Nat) (hm : 1 ≤ maxLength) :
    1 ≤ computeSplitIndex rem maxLength ∧ computeSplitIndex rem maxLength ≤ maxLength := by
  unfold computeSplitIndex
  split
  · exact spaceSplitIndex_bounds rem maxLength hm
  · next i hnl =>
      have hi := lastIndexOfAt_le rem '\n' maxLength i hnl
      split_ifs with h2
      · exact spaceSplitIndex_bounds rem maxLength hm
      · constructor <;> omega

theorem splitLoop_next_shorter (maxLength : Nat) (hm : 1 ≤ maxLength) (rem : List Char)
    (hlen : ¬rem.length ≤ maxLength) :
    (jsTrimStart (rem.drop (computeSplitIndex rem maxLength))).length < rem.length := by
  have hidx := computeSplitIndex_bounds rem maxLength hm
  have hdrop : (rem.drop (computeSplitIndex rem maxLength)).length
      = rem.length - computeSplitIndex rem maxLength := by
    simp
  have htrim : (jsTrimStart (rem.drop (computeSplitIndex rem maxLength))).length
      ≤ (rem.drop (computeSplitIndex rem maxLength)).length :=
    List.Sublist.length_le (List.dropWhile_sublist _)
  omega

theorem splitLoop_fuel (maxLength : Nat) (hm : 1 ≤ maxLength) :
    ∀ (f : Nat) (rem : List Char) (g : Nat), rem.length ≤ f → rem.length ≤ g →
      splitLoop maxLength f rem = splitLoop maxLength g rem := by
  intro f
  induction f with
  | zero =>
      intro rem g hf hg
      have hnil : rem = [] := by
        cases rem
        · rfl
        · simp at hf
      subst hnil
      cases g <;> rfl
  | succ f ih =>
      intro rem g hf hg
      cases rem with
      | nil => cases g <;> rfl
      | cons c rest =>
          obtain ⟨g1, rfl⟩ : ∃ g1, g = g1 + 1 := ⟨g - 1, by simp at hg; omega⟩
          by_cases hlen : (c :: rest).length ≤ maxLength
          · simp only [splitLoop, if_pos hlen]
          · have hsh := splitLoop_next_shorter maxLength hm (c :: rest) hlen
            simp only [splitLoop, if_neg hlen]
            congr 1
            exact ih _ g1 (by omega) (by omega)

theorem splitLoop_chunks (maxLength : Nat) (hm : 1 ≤ maxLength) :
    ∀ (fuel : Nat) (rem : List Char), rem.length ≤ fuel →
      (rem ≠ [] → splitLoop maxLength fuel rem ≠ [])
        ∧ (∀ ch ∈ splitLoop maxLength fuel rem, ch.length ≤ maxLength) := by
  intro fuel
  induction fuel with
  | zero =>
      intro rem h
      have hnil : rem = [] := by
        cases rem
        · rfl
        · simp at h
      subst hnil
      constructor
      · intro hc
        exact absurd rfl hc
      · intro ch hch
        simp [splitLoop] at hch
  | succ f ih =>
      intro rem h
      cases rem with
      | nil =>
          constructor
          · intro hc
            exact absurd rfl hc
          · intro ch hch
            simp [splitLoop] at hch
      | cons c rest =>
          by_cases hlen : (c :: rest).length ≤ maxLength
          · constructor
            · intro _
              simp only [splitLoop, if_pos hlen]
              simp
            · intro ch hch
              simp only [splitLoop, if_pos hlen] at hch
              rw [List.mem_singleton] at hch
              subst hch
              exact hlen
          · have hsh := splitLoop_next_shorter maxLength hm (c :: rest) hlen
            have hidx := computeSplitIndex_bounds (c :: rest) maxLength hm
            have hrec := ih
              (jsTrimStart ((c :: rest).drop (computeSplitIndex (c :: rest) maxLength)))
              (by omega)
            constructor
            · intro _
              simp only [splitLoop, if_neg hlen]
              simp
            · intro ch hch
              simp only [splitLoop, if_neg hlen] at hch
              rcases List.mem_cons.mp hch with hch | hch
              · subst hch
                have htake : ((c :: rest).take (computeSplitIndex (c :: rest) maxLength)).length
                    ≤ computeSplitIndex (c :: rest) maxLength := by
                  rw [List.length_take]
                  omega
                omega
              · exact hrec.2 ch hch

/-- C10: with `maxLength ≥ 1`, the chunking loop terminates (its result
is fuel-invariant once the fuel covers the content length), returns a
nonempty chunk list with every chunk at most `maxLength` long, and
returns short content unchanged as a single chunk. -/
theorem splitMessage_spec (content : List Char) (maxLength : Nat) (hm : 1 ≤ maxLength) :
    (∀ fuel, content.length ≤ fuel →
        splitLoop maxLength fuel content = splitLoop maxLength content.length content)
      ∧ splitMessage content maxLength ≠ []
      ∧ (∀ ch ∈ splitMessage content maxLength, ch.length ≤ maxLength)
      ∧ (content.length ≤ maxLength → splitMessage content maxLength = [content]) := by
  refine ⟨?_, ?_, ?_, ?_⟩
  · intro fuel hf
    exact splitLoop_fuel maxLength hm fuel content content.length hf le_rfl
  · unfold splitMessage
    split_ifs with hshort
    · simp
    · have hcnil : content ≠ [] := by
        intro hc
        subst hc
        simp at hshort
      exact (splitLoop_chunks maxLength hm content.length content le_rfl).1 hcnil
  · intro ch hch
    unfold splitMessage at hch
    split_ifs at hch with hshort
    · rw [List.mem_singleton] at hch
      subst hch
      exact hshort
    · exact (splitLoop_chunks maxLength hm content.length content le_rfl).2 ch hch
  · intro hshort
    unfold splitMessage
    rw [if_pos hshort]

/-- Witness for C10 at concrete short and long content. -/
theorem splitMessage_spec_witness :
    splitMessage "hi".toList 7 = ["hi".toList]
      ∧ splitMessage "hello world again".toList 7 ≠ [] :=
  ⟨(splitMessage_spec "hi".toList 7 (by decide)).2.2.2 (by decide),
   (splitMessage_spec "hello world again".toList 7 (by decide)).2.1⟩
